import Mathlib

/-!
Shallow embedding of the connector subsystem of the scenario-tracker
repository (src/public/assets/connectors.js,
src/public/assets/components/connector/ConnectorManager.js,
src/public/assets/controllers/ConnectionController.js and the layout
manager in src/unnamed/part_014).

Coordinates and fractional dot positions are rationals.  Every distance
comparison in the source is between two non-negative real distances
(`Math.hypot` / `Math.sqrt` results), so the embedding compares squared
distances instead, which preserves every `<`, `≤`, `=` verbatim and keeps
the development computable.
-/

/-- A pixel point, the `{x, y}` objects produced by `center` /
`calculateElementCenterCoordinates`. -/
structure Pt where
  x : ℚ
  y : ℚ
deriving DecidableEq, Repr

/-- Squared Euclidean distance; the squared form of `Math.hypot(c.x - x, c.y - y)`
from `nearestEndpoint` and of `calculateDistance` from DOMUtils.js. -/
def distSq (a b : Pt) : ℚ :=
  (a.x - b.x) * (a.x - b.x) + (a.y - b.y) * (a.y - b.y)

/-- Geometry of one card element: `data-id`, `style.left/top` and rendered
width/height (cards are absolutely positioned; `getBoundingClientRect` yields
exactly these values in the model). -/
structure CardGeom where
  id : ℕ
  x : ℚ
  y : ℚ
  w : ℚ
  h : ℚ
deriving DecidableEq, Repr

/-- One connector dot.  `side` is the `data-side` attribute
(0=TOP 1=RIGHT 2=BOTTOM 3=LEFT, 4-7 corners), `left`/`top` are the CSS
percentage offsets of the dot within its card as fractions in [0,1], and
`occupied` is the `data-occupied` flag.  `id` stands for the DOM element's
identity (dots are compared by reference in the source); `cardId` is the
`data-id` of the owning card. -/
structure Dot where
  id : ℕ
  cardId : ℕ
  side : ℕ
  left : ℚ
  top : ℚ
  occupied : Bool
deriving DecidableEq, Repr

/-- One committed connection, the `{id, from, to, svg}` records of the
`lines` array.  `id` is the numeric part of the generated `line-N` string;
`fromDot`/`toDot` are the endpoint references (their card/side/offset fields
never change after creation, occupancy is tracked in the dots list). -/
structure Line where
  id : ℕ
  fromDot : Dot
  toDot : Dot
deriving DecidableEq, Repr

/-- The module-level mutable state of the connector subsystem:
the `endpoints` array, the `lines` array, the `lineCounter`, the active
`drawing` record (its `from` endpoint), the card elements the dots live on,
and a counter supplying fresh identities for newly created dot elements. -/
structure ConnState where
  cards : List CardGeom
  dots : List Dot
  lines : List Line
  lineCounter : ℕ
  dotCounter : ℕ
  drawing : Option Dot
deriving DecidableEq, Repr

/-- Lookup of a card element by `data-id` (`document.querySelector` over the
card list in document order). -/
def findCard (s : ConnState) (cid : ℕ) : Option CardGeom :=
  s.cards.find? (fun c => c.id = cid)

/-- Pixel centre of a dot, the embedding of `center(ep)` /
`calculateElementCenterCoordinates`: the dot is rendered at its fractional
offset of the owning card. -/
def dotCenter (s : ConnState) (d : Dot) : Pt :=
  match findCard s d.cardId with
  | some c => ⟨c.x + d.left * c.w, c.y + d.top * c.h⟩
  | none => ⟨0, 0⟩

/-- The snap radius: `const SNAP = 24` in connectors.js,
`CONNECTOR_SNAP_DISTANCE: 24` / `SNAP_DISTANCE: 24` in the other variants. -/
def SNAP : ℚ := 24

/-- One iteration of the `endpoints.forEach` loop in `nearestEndpoint` /
`findNearestEndpoint`: skip dots of the source's own card, then keep the
candidate iff its (squared) distance to the pointer is strictly below the
(squared) running best. -/
def snapStep (s : ConnState) (p : Pt) (skip : Dot) (acc : Option Dot × ℚ)
    (ep : Dot) : Option Dot × ℚ :=
  if ep.cardId = skip.cardId then acc
  else if distSq (dotCenter s ep) p < acc.2 then (some ep, distSq (dotCenter s ep) p)
  else acc

/-- The snap resolver `nearestEndpoint(x, y, skip)` (connectors.js 107-121) =
`findNearestEndpoint` (ConnectorManager.js 130-147): fold the comparison over
the endpoint array with initial best distance `SNAP`, squared here. -/
def nearestEndpoint (s : ConnState) (p : Pt) (skip : Dot) : Option Dot :=
  (s.dots.foldl (snapStep s p skip) (none, SNAP * SNAP)).1

/-- Scalar position of a dot along its side, the embedding of
`getDotPosition` (connectors.js 228-246): horizontal sides read `style.left`,
vertical sides read `style.top`, corners combine both. -/
def getDotPosition (d : Dot) : ℚ :=
  match d.side with
  | 0 => d.left
  | 2 => d.left
  | 1 => d.top
  | 3 => d.top
  | _ => d.left + d.top

/-- The dots of one card on one side in document order, the result of
`card.querySelectorAll` with a `data-side` selector. -/
def dotsOnSide (s : ConnState) (cid side : ℕ) : List Dot :=
  s.dots.filter (fun d => d.cardId = cid ∧ d.side = side)

/-- Fractional CSS offset `{left, top}` of a new intermediate dot on a given
side at scalar position `m`, the `switch (side)` of
`createEdgeIntermediateDots` (connectors.js 192-209). -/
def newPosFor (side : ℕ) (m : ℚ) : ℚ × ℚ :=
  match side with
  | 0 => (m, 0)
  | 1 => (1, m)
  | 2 => (m, 1)
  | _ => (0, m)

/-- The gap scan of `createEdgeIntermediateDots` (connectors.js 179-213): walk
adjacent pairs of the sorted dot list; when both dots are occupied and their
positions differ by more than 0.15 record the midpoint's offsets. -/
def adjacentPairsNewPos (side : ℕ) : List Dot → List (ℚ × ℚ)
  | d1 :: d2 :: rest =>
      (if d1.occupied ∧ d2.occupied ∧ 3 / 20 < |getDotPosition d1 - getDotPosition d2| then
        [newPosFor side ((getDotPosition d1 + getDotPosition d2) / 2)]
      else []) ++ adjacentPairsNewPos side (d2 :: rest)
  | _ => []

/-- The guarded dot constructor `createNewDot` (connectors.js 248-277): if any
existing dot of the card lies within fractional Euclidean distance 0.1 of the
candidate offsets the creation is skipped, otherwise a fresh unoccupied dot is
appended and registered. -/
def createNewDot (s : ConnState) (cid side : ℕ) (l t : ℚ) : ConnState :=
  if s.dots.any (fun d => d.cardId = cid ∧
      (d.left - l) * (d.left - l) + (d.top - t) * (d.top - t) < 1 / 100) then s
  else
    { s with
      dots := s.dots ++ [⟨s.dotCounter, cid, side, l, t, false⟩],
      dotCounter := s.dotCounter + 1 }

/-- The per-edge generator `createEdgeIntermediateDots` (connectors.js
174-218): sort the side's dots by position (`sortDotsByPosition`), collect the
midpoint candidates, then create each through `createNewDot`. -/
def createEdgeIntermediateDots (s : ConnState) (cid side : ℕ) : ConnState :=
  let sorted := List.insertionSort
    (fun a b => getDotPosition a ≤ getDotPosition b) (dotsOnSide s cid side)
  (adjacentPairsNewPos side sorted).foldl
    (fun t pr => createNewDot t cid side pr.1 pr.2) s

/-- The generator entry point `addAdjacentDots` / `createIntermediateDots`
(connectors.js 155-172): edge sides (0-3) are subdivided, corner sides are
left alone. -/
def addAdjacentDots (s : ConnState) (cid side : ℕ) : ConnState :=
  if side ≤ 3 then createEdgeIntermediateDots s cid side else s

/-- Set the `data-occupied` flag of the dot element with identity `i`
(`markDotAsOccupied` and the resets in `removeLineById` /
`clearAllLines`). -/
def setOcc (dots : List Dot) (i : ℕ) (b : Bool) : List Dot :=
  dots.map (fun d => if d.id = i then { d with occupied := b } else d)

/-- The commit path `finishDraw(from, to, line)` (connectors.js 123-143) =
`finalizeConnection` (ConnectorManager.js 154-180): generate the next line id,
push the connection, mark both dots occupied, run the generator on both
involved cards, then `recalcAllLines` (pure rendering, no model state). -/
def finishDraw (s : ConnState) (fromD toD : Dot) : ConnState :=
  let s1 := { s with
    lineCounter := s.lineCounter + 1,
    lines := s.lines ++ [Line.mk (s.lineCounter + 1) fromD toD] }
  let s2 := { s1 with dots := setOcc (setOcc s1.dots fromD.id true) toD.id true }
  addAdjacentDots (addAdjacentDots s2 fromD.cardId fromD.side) toD.cardId toD.side

/-- Pointer-down on a dot (`startDraw`): record the active drawing.  The
provisional SVG line is pure rendering and carries no model state. -/
def startDraw (s : ConnState) (fromD : Dot) : ConnState :=
  { s with drawing := some fromD }

/-- The pointer-up handler (connectors.js 89-101, ConnectorManager.js
101-118): when a drawing is active, resolve the snap target; commit through
`finishDraw` on success, otherwise just discard the provisional line; in both
cases clear the drawing record. -/
def pointerUp (s : ConnState) (p : Pt) : ConnState :=
  match s.drawing with
  | none => s
  | some fromD =>
    match nearestEndpoint s p fromD with
    | some toD => { finishDraw s fromD toD with drawing := none }
    | none => { s with drawing := none }

/-- A whole drag gesture: pointer-down on a source dot followed by pointer-up
at a release point (the single-pointer event model of the source). -/
def gesture (s : ConnState) (g : Dot × Pt) : ConnState :=
  pointerUp (startDraw s g.1) g.2

/-- Any finite sequence of drag gestures. -/
def applyGestures (gs : List (Dot × Pt)) (s : ConnState) : ConnState :=
  gs.foldl gesture s

/-- Splice-at-first-match: the `lines.findIndex` + `lines.splice(index, 1)`
pair of `removeLineById` / `removeConnectionById`. -/
def eraseFirstById (lid : ℕ) : List Line → List Line
  | [] => []
  | l :: ls => if l.id = lid then ls else l :: eraseFirstById lid ls

/-- Connection removal `removeLineById(id)` (connectors.js 284-301) =
`removeConnectionById` (ConnectorManager.js 232-251): no-op when the id is
absent; otherwise reset both referenced dots to unoccupied (the source's
`if occupied then set false` equals the unconditional reset) and splice the
line out. -/
def removeLineById (s : ConnState) (lid : ℕ) : ConnState :=
  match s.lines.find? (fun l => l.id = lid) with
  | none => s
  | some line =>
    { s with
      lines := eraseFirstById lid s.lines,
      dots := setOcc (setOcc s.dots line.fromDot.id false) line.toDot.id false }

/-- One serialized connection record, the objects produced by `getLines` /
`getAllConnections` and consumed by `createLineFromSaved` /
`createConnectionFromSaved`.  No position field is serialized. -/
structure SavedConn where
  fromCardId : ℕ
  fromSide : ℕ
  toCardId : ℕ
  toSide : ℕ
deriving DecidableEq, Repr

/-- The serializer `getLines` (connectors.js 303-311) = `getAllConnections`
(ConnectorManager.js 256-264): card id and side of both endpoints, nothing
else (`getSideFromDot` reads the stored `data-side`). -/
def getLines (s : ConnState) : List SavedConn :=
  s.lines.map (fun l => ⟨l.fromDot.cardId, l.fromDot.side, l.toDot.cardId, l.toDot.side⟩)

/-- Dot resolution `findDotAtSide(card, side)` (connectors.js 382-395,
ConnectorManager.js 351-363): among the card's dots with the requested side
in document order, prefer the first unoccupied one, fall back to the first,
and fail when the side has no dot at all. -/
def findDotAtSide (s : ConnState) (cid side : ℕ) : Option Dot :=
  match dotsOnSide s cid side with
  | [] => none
  | first :: _ =>
    some (((dotsOnSide s cid side).find? (fun d => !d.occupied)).getD first)

/-- The deserializer for one record, `createLineFromSaved` (connectors.js
342-380): missing card or unresolvable dot aborts the record with no state
change; otherwise a fresh line is pushed, both dots are marked occupied and
the generator runs on both cards (then `recalcAllLines`). -/
def createLineFromSaved (s : ConnState) (r : SavedConn) : ConnState :=
  match findCard s r.fromCardId, findCard s r.toCardId with
  | some _, some _ =>
    match findDotAtSide s r.fromCardId r.fromSide, findDotAtSide s r.toCardId r.toSide with
    | some fd, some td =>
      let s1 := { s with
        lineCounter := s.lineCounter + 1,
        lines := s.lines ++ [Line.mk (s.lineCounter + 1) fd td] }
      let s2 := { s1 with dots := setOcc (setOcc s1.dots fd.id true) td.id true }
      addAdjacentDots (addAdjacentDots s2 fd.cardId fd.side) td.cardId td.side
    | _, _ => s
  | _, _ => s

/-- The ConnectorManager variant `createConnectionFromSaved`
(ConnectorManager.js 305-344): same resolution and skip policy as
`createLineFromSaved` but without the generator invocation. -/
def createConnectionFromSaved (s : ConnState) (r : SavedConn) : ConnState :=
  match findCard s r.fromCardId, findCard s r.toCardId with
  | some _, some _ =>
    match findDotAtSide s r.fromCardId r.fromSide, findDotAtSide s r.toCardId r.toSide with
    | some fd, some td =>
      let s1 := { s with
        lineCounter := s.lineCounter + 1,
        lines := s.lines ++ [Line.mk (s.lineCounter + 1) fd td] }
      { s1 with dots := setOcc (setOcc s1.dots fd.id true) td.id true }
    | _, _ => s
  | _, _ => s

/-- Bulk clear `clearAllLines` (connectors.js 397-407) = `clearAllConnections`
(ConnectorManager.js 368-380): drop every line and reset every dot to
unoccupied. -/
def clearAllLines (s : ConnState) : ConnState :=
  { s with
    lines := [],
    dots := s.dots.map (fun d => { d with occupied := false }) }

/-- Replaying a saved connection list through `createLineFromSaved`, the
`layout.arrows.forEach` loop of `loadLayoutFromFile` (part_014 144-153). -/
def deserialize (rs : List SavedConn) (s : ConnState) : ConnState :=
  rs.foldl createLineFromSaved s

/-- Replaying a saved connection list through the ConnectorManager variant. -/
def deserializeCM (rs : List SavedConn) (s : ConnState) : ConnState :=
  rs.foldl createConnectionFromSaved s

/-- The (cardId, side, position) data of both endpoints of a stored line, the
tuple the round-trip claim compares.  Positions are read the way the source
reads them, through `getDotPosition`. -/
def tuple6 (l : Line) : ℕ × ℕ × ℚ × ℕ × ℕ × ℚ :=
  (l.fromDot.cardId, l.fromDot.side, getDotPosition l.fromDot,
   l.toDot.cardId, l.toDot.side, getDotPosition l.toDot)

/-- The card-and-side data of both endpoints of a stored line, exactly the
data that `getLines` serializes. -/
def tuple4 (l : Line) : ℕ × ℕ × ℕ × ℕ :=
  (l.fromDot.cardId, l.fromDot.side, l.toDot.cardId, l.toDot.side)

/-- A saved record resolves in a state when both referenced cards exist and
both referenced sides carry at least one dot, the exact success condition of
`createLineFromSaved` / `createConnectionFromSaved`. -/
def Resolvable (s : ConnState) (r : SavedConn) : Prop :=
  (∃ c ∈ s.cards, c.id = r.fromCardId) ∧ (∃ c ∈ s.cards, c.id = r.toCardId) ∧
  (∃ d ∈ s.dots, d.cardId = r.fromCardId ∧ d.side = r.fromSide) ∧
  (∃ d ∈ s.dots, d.cardId = r.toCardId ∧ d.side = r.toSide)

instance (s : ConnState) (r : SavedConn) : Decidable (Resolvable s r) := by
  unfold Resolvable; infer_instance

/-- A dot record of the position-aware ConnectionController
(`this._dots[cardId]` entries): `data-side`, fractional position along the
side, occupancy.  The string `dotId` of the source is a function of side and
position and is not modelled separately. -/
structure CtrlDot where
  side : ℕ
  position : ℚ
  occupied : Bool
deriving DecidableEq, Repr

/-- The adjacent-pair scan of `_calculateNewDotPositions`
(ConnectionController.js 392-399): for each adjacent pair of the bounded
position list whose gap exceeds 0.1, record the midpoint. -/
def midgaps : List ℚ → List ℚ
  | p1 :: p2 :: rest =>
      (if 1 / 10 < p2 - p1 then [(p1 + p2) / 2] else []) ++ midgaps (p2 :: rest)
  | _ => []

/-- `_calculateNewDotPositions(occupiedDots, side)` (ConnectionController.js
388-403): bound the occupied positions by 0 and 1, then scan the gaps. -/
def calculateNewDotPositions (occupiedPositions : List ℚ) : List ℚ :=
  midgaps (0 :: (occupiedPositions ++ [1]))

/-- One iteration of the `for (side = 0; side < 4; ...)` loop of
`_generateNewDots` (ConnectionController.js 362-385): sort this side's dots by
position, keep the occupied ones, skip the side when none is occupied,
otherwise push an unoccupied dot for every computed midpoint. -/
def ctrlSideStep (dots : List CtrlDot) (side : ℕ) : List CtrlDot :=
  let sideDots := List.insertionSort (fun a b => a.position ≤ b.position)
    (dots.filter (fun d => d.side = side))
  let occ := sideDots.filter (fun d => d.occupied)
  if occ = [] then dots
  else dots ++ (calculateNewDotPositions (occ.map (fun d => d.position))).map
    (fun p => CtrlDot.mk side p false)

/-- `_generateNewDots(card)` (ConnectionController.js 355-386) for one card:
run the side step for the four edge sides. -/
def ctrlGenerateNewDots (dots : List CtrlDot) : List CtrlDot :=
  (List.range 4).foldl ctrlSideStep dots

/-- `_findDotByData` followed by `dot.dataset.occupied = true` /
`_updateDotState` (ConnectionController.js 281-285, 321-353): mark the first
dot whose side matches and whose position is within 0.01 as occupied. -/
def ctrlOccupy (side : ℕ) (pos : ℚ) : List CtrlDot → List CtrlDot
  | [] => []
  | d :: ds =>
    if d.side = side ∧ |d.position - pos| < 1 / 100 then
      { d with occupied := true } :: ds
    else d :: ctrlOccupy side pos ds

/-- The per-card effect of committing a connection endpoint in
`_completeAndRenderConnection` (ConnectionController.js 281-288): the resolved
dot becomes occupied, then `_generateNewDots` runs on the card. -/
def ctrlCommitEndpoint (dots : List CtrlDot) (side : ℕ) (pos : ℚ) : List CtrlDot :=
  ctrlGenerateNewDots (ctrlOccupy side pos dots)

/-- The default dot set `_initializeCardDots` gives every card
(ConnectionController.js 168-195): the four edge midpoints, unoccupied. -/
def ctrlDefaultDots : List CtrlDot :=
  [⟨0, 1/2, false⟩, ⟨1, 1/2, false⟩, ⟨2, 1/2, false⟩, ⟨3, 1/2, false⟩]

/-- Positions of a card's dots on one side, in store order. -/
def sidePositions (dots : List CtrlDot) (side : ℕ) : List ℚ :=
  (dots.filter (fun d => d.side = side)).map (fun d => d.position)

/-- The Dynamic Endpoint Generator as claim C2 words it, kept separate from
the source-derived definitions so the two can be compared: take ALL endpoint
positions of the edge sorted ascending, bound them by 0 and 1, and emit the
midpoint of every adjacent pair whose gap exceeds the threshold (0.1, the
constant of `_calculateNewDotPositions`). -/
def specClaimedNewDotPositions (allPositions : List ℚ) : List ℚ :=
  midgaps (0 :: (List.insertionSort (fun a b => a ≤ b) allPositions ++ [1]))

/-- Adjacent pairs of a list, the index pairs (i, i+1) the generator loops
over. -/
def adjacentPairs (l : List ℚ) : List (ℚ × ℚ) :=
  l.zip l.tail

/-- The positions of the occupied dots of one side sorted ascending, the
list `occupiedDots.map(d => d.position)` that `_generateNewDots` hands to
`_calculateNewDotPositions`. -/
def occupiedPositionsSorted (dots : List CtrlDot) (side : ℕ) : List ℚ :=
  ((List.insertionSort (fun a b => a.position ≤ b.position)
      (dots.filter (fun d => d.side = side))).filter (fun d => d.occupied)).map
    (fun d => d.position)

/-- The bounded list `[0, ...occupied positions, 1]` whose gaps the generator
scans. -/
def boundedOccupied (dots : List CtrlDot) (side : ℕ) : List ℚ :=
  0 :: (occupiedPositionsSorted dots side ++ [1])

/-- The separation property claim C6 states for the controller store: no two
dots of the same edge lie within 0.1 of each other. -/
def CtrlEdgeSeparated (dots : List CtrlDot) : Prop :=
  List.Pairwise (fun a b => a.side = b.side → 1 / 10 ≤ |a.position - b.position|) dots

instance (dots : List CtrlDot) : Decidable (CtrlEdgeSeparated dots) := by
  unfold CtrlEdgeSeparated; infer_instance

/-- Two dots are separated when, on a shared card, their fractional offsets
are at squared Euclidean distance at least (0.1)^2 — the squared form of the
proximity guard of `createNewDot`. -/
def SepR (a b : Dot) : Prop :=
  a.cardId = b.cardId →
    1 / 100 ≤ (a.left - b.left) * (a.left - b.left) + (a.top - b.top) * (a.top - b.top)

instance : DecidableRel SepR := fun a b => by
  unfold SepR; infer_instance

/-- The separation property maintained by `createNewDot`: any two dots of the
same card keep fractional offsets at squared Euclidean distance at least
(0.1)^2 (which bounds every same-edge position gap as well). -/
def Separated (s : ConnState) : Prop :=
  List.Pairwise SepR s.dots

instance (s : ConnState) : Decidable (Separated s) := by
  unfold Separated; infer_instance

/-- A card entry of the layout file (`layout.cards` in part_014). -/
structure CardSpec where
  scenarioId : ℕ
  x : ℚ
  y : ℚ
  width : ℚ
  height : ℚ
deriving DecidableEq, Repr

/-- A successfully parsed layout document: `cards` and `arrows` are each
absent when the parsed value lacks a truthy field of that name (the
`if (layout.cards)` / `if (layout.arrows)` guards). -/
structure LayoutSpec where
  cards : Option (List CardSpec)
  arrows : Option (List SavedConn)
deriving DecidableEq, Repr

/-- One iteration of the `layout.cards.forEach` loop of `loadLayoutFromFile`
(part_014 128-137): a card spec whose scenario id is unknown is skipped,
otherwise position (clamped below the header offset) and size are applied. -/
def applyCardSpec (off : ℚ) (s : ConnState) (spec : CardSpec) : ConnState :=
  { s with cards := s.cards.map (fun c =>
      if c.id = spec.scenarioId then
        CardGeom.mk c.id spec.x (max spec.y off) spec.width spec.height
      else c) }

/-- The layout loader `loadLayoutFromFile(json)` (part_014 120-161).  The
input is the outcome of `JSON.parse`: `none` when parsing throws, in which
case the `catch` block reports the failure (`console.error` + `alert`,
returned as the Boolean) and nothing is applied.  On a parsed document:
apply card specs, clear all connections, replay the arrows through
`createConnectionFromSaved`, then recalculate lines (pure rendering). -/
def loadLayoutFromFile (off : ℚ) (input : Option LayoutSpec) (s : ConnState) :
    ConnState × Bool :=
  match input with
  | none => (s, true)
  | some layout =>
    let s1 := match layout.cards with
      | some cs => cs.foldl (applyCardSpec off) s
      | none => s
    let s2 := clearAllLines s1
    let s3 := match layout.arrows with
      | some rs => rs.foldl createConnectionFromSaved s2
      | none => s2
    (s3, false)

/-- The default grid `resetGridLayout` (part_014 42-62): cards are laid out by
index in a 3-column grid of 350 by 250 cells with a 24 gap below the header
offset, and all connections are cleared. -/
def resetGridLayout (off : ℚ) (s : ConnState) : ConnState :=
  clearAllLines
    { s with cards := s.cards.enum.map (fun pr =>
        CardGeom.mk pr.2.id (((pr.1 % 3 : ℕ) : ℚ) * (350 + 24))
          (off + ((pr.1 / 3 : ℕ) : ℚ) * (250 + 24)) 350 250) }

set_option maxRecDepth 10000

/-- The eight dots `createConnectorDots` gives a card (Card.js 53-79): four
edge midpoints and four corners, with consecutive element identities starting
at `base`. -/
def defaultDots (base cid : ℕ) : List Dot :=
  [⟨base, cid, 0, 1/2, 0, false⟩, ⟨base+1, cid, 1, 1, 1/2, false⟩,
   ⟨base+2, cid, 2, 1/2, 1, false⟩, ⟨base+3, cid, 3, 0, 1/2, false⟩,
   ⟨base+4, cid, 4, 0, 0, false⟩, ⟨base+5, cid, 5, 1, 0, false⟩,
   ⟨base+6, cid, 6, 1, 1, false⟩, ⟨base+7, cid, 7, 0, 1, false⟩]

/-- Card A of the specification scenario: id 1 at (0,0), 350 by 250. -/
def cardA : CardGeom := ⟨1, 0, 0, 350, 250⟩

/-- Card B of the specification scenario: id 2 at (500,0), 350 by 250. -/
def cardB : CardGeom := ⟨2, 500, 0, 350, 250⟩

/-- The two-card scenario state: cards A and B with their default dots and no
connection yet. -/
def stateAB : ConnState :=
  ⟨[cardA, cardB], defaultDots 0 1 ++ defaultDots 8 2, [], 0, 16, none⟩

/-- Card A's RIGHT midpoint dot in `stateAB` (centre (350, 125)). -/
def dotARight : Dot := ⟨1, 1, 1, 1, 1/2, false⟩

/-- Card B's LEFT midpoint dot in `stateAB` (centre (500, 125)). -/
def dotBLeft : Dot := ⟨11, 2, 3, 0, 1/2, false⟩

/-- An unoccupied dot on card A's RIGHT side at position 0.5, registered
before `dotRTb`. -/
def dotRTa : Dot := ⟨0, 1, 1, 1, 1/2, false⟩

/-- An occupied dot on card A's RIGHT side at position 0.25 (an intermediate
dot created by the generator in an earlier session). -/
def dotRTb : Dot := ⟨1, 1, 1, 1, 1/4, true⟩

/-- An occupied dot on card B's LEFT side at position 0.5. -/
def dotRTc : Dot := ⟨2, 2, 3, 0, 1/2, true⟩

/-- A state holding one committed connection whose from-endpoint sits at
position 0.25 of card A's RIGHT side. -/
def stateRT : ConnState :=
  ⟨[cardA, cardB], [dotRTa, dotRTb, dotRTc], [Line.mk 1 dotRTb dotRTc], 1, 3, none⟩

/-- A dot of card A shared by two committed connections. -/
def dotShared : Dot := ⟨0, 1, 1, 1, 1/2, true⟩

/-- The first connection's endpoint on card B. -/
def dotRMb : Dot := ⟨1, 2, 3, 0, 1/2, true⟩

/-- The second connection's endpoint on card B. -/
def dotRMc : Dot := ⟨2, 2, 0, 1/2, 0, true⟩

/-- A state with two committed connections that share the endpoint
`dotShared`. -/
def stateRM : ConnState :=
  ⟨[cardA, cardB], [dotShared, dotRMb, dotRMc],
   [Line.mk 1 dotShared dotRMb, Line.mk 2 dotShared dotRMc], 2, 3, none⟩

/-- Invariant of the `endpoints.forEach` fold of the snap resolver: the
running best never grows, a `none` best means the bound is still the snap
radius, a `some` best is an eligible dot achieving the current bound strictly
inside the radius, and the bound is below the distance of every eligible dot
already scanned. -/
theorem snap_foldl_spec (s : ConnState) (p : Pt) (skip : Dot) :
    ∀ (l : List Dot) (acc : Option Dot × ℚ),
    acc.2 ≤ SNAP * SNAP →
    (acc.1 = none → acc.2 = SNAP * SNAP) →
    (∀ b, acc.1 = some b → b.cardId ≠ skip.cardId ∧
      acc.2 = distSq (dotCenter s b) p ∧ acc.2 < SNAP * SNAP) →
    (l.foldl (snapStep s p skip) acc).2 ≤ acc.2 ∧
    ((l.foldl (snapStep s p skip) acc).1 = none →
      (l.foldl (snapStep s p skip) acc).2 = SNAP * SNAP) ∧
    (∀ b, (l.foldl (snapStep s p skip) acc).1 = some b →
      (b ∈ l ∨ acc.1 = some b) ∧ b.cardId ≠ skip.cardId ∧
      (l.foldl (snapStep s p skip) acc).2 = distSq (dotCenter s b) p ∧
      (l.foldl (snapStep s p skip) acc).2 < SNAP * SNAP) ∧
    (∀ ep ∈ l, ep.cardId ≠ skip.cardId →
      (l.foldl (snapStep s p skip) acc).2 ≤ distSq (dotCenter s ep) p) := by
  intro l
  induction l with
  | nil =>
    intro acc h1 h2 h3
    refine ⟨le_refl _, h2, ?_, ?_⟩
    · intro b hb
      exact ⟨Or.inr hb, h3 b hb⟩
    · intro ep hep
      exact absurd hep (List.not_mem_nil ep)
  | cons e rest ih =>
    intro acc h1 h2 h3
    simp only [List.foldl_cons]
    by_cases hc : e.cardId = skip.cardId
    · have hacc : snapStep s p skip acc e = acc := by
        simp [snapStep, hc]
      rw [hacc]
      obtain ⟨g1, g2, g3, g4⟩ := ih acc h1 h2 h3
      refine ⟨g1, g2, ?_, ?_⟩
      · intro b hb
        obtain ⟨hmem, hrest⟩ := g3 b hb
        exact ⟨hmem.imp (List.mem_cons_of_mem e) id, hrest⟩
      · intro ep hep hcard
        rcases List.mem_cons.mp hep with rfl | hep2
        · exact absurd hc hcard
        · exact g4 ep hep2 hcard
    · by_cases hd : distSq (dotCenter s e) p < acc.2
      · have hacc : snapStep s p skip acc e = (some e, distSq (dotCenter s e) p) := by
          simp [snapStep, hc, hd]
        rw [hacc]
        have h1a : ((some e, distSq (dotCenter s e) p) : Option Dot × ℚ).2 ≤ SNAP * SNAP :=
          le_of_lt (lt_of_lt_of_le hd h1)
        have h2a : ((some e, distSq (dotCenter s e) p) : Option Dot × ℚ).1 = none →
            ((some e, distSq (dotCenter s e) p) : Option Dot × ℚ).2 = SNAP * SNAP := by
          intro hcontra; cases hcontra
        have h3a : ∀ b, ((some e, distSq (dotCenter s e) p) : Option Dot × ℚ).1 = some b →
            b.cardId ≠ skip.cardId ∧
            ((some e, distSq (dotCenter s e) p) : Option Dot × ℚ).2 =
              distSq (dotCenter s b) p ∧
            ((some e, distSq (dotCenter s e) p) : Option Dot × ℚ).2 < SNAP * SNAP := by
          intro b hb
          obtain rfl : e = b := Option.some.inj hb
          exact ⟨hc, rfl, lt_of_lt_of_le hd h1⟩
        obtain ⟨g1, g2, g3, g4⟩ := ih _ h1a h2a h3a
        refine ⟨le_trans g1 (le_of_lt hd), g2, ?_, ?_⟩
        · intro b hb
          obtain ⟨hmem, hrest⟩ := g3 b hb
          rcases hmem with hmem | hmem
          · exact ⟨Or.inl (List.mem_cons_of_mem e hmem), hrest⟩
          · obtain rfl : e = b := Option.some.inj hmem
            exact ⟨Or.inl (List.mem_cons_self e rest), hrest⟩
        · intro ep hep hcard
          rcases List.mem_cons.mp hep with rfl | hep2
          · exact g1
          · exact g4 ep hep2 hcard
      · have hacc : snapStep s p skip acc e = acc := by
          simp [snapStep, hc, hd]
        rw [hacc]
        obtain ⟨g1, g2, g3, g4⟩ := ih acc h1 h2 h3
        refine ⟨g1, g2, ?_, ?_⟩
        · intro b hb
          obtain ⟨hmem, hrest⟩ := g3 b hb
          exact ⟨hmem.imp (List.mem_cons_of_mem e) id, hrest⟩
        · intro ep hep hcard
          rcases List.mem_cons.mp hep with rfl | hep2
          · exact le_trans g1 (not_lt.mp hd)
          · exact g4 ep hep2 hcard

/-- A successful snap returns an eligible stored endpoint strictly inside
the snap radius that minimises the distance to the pointer. -/
theorem nearestEndpoint_some_spec (s : ConnState) (p : Pt) (skip ep : Dot)
    (h : nearestEndpoint s p skip = some ep) :
    ep ∈ s.dots ∧ ep.cardId ≠ skip.cardId ∧
    distSq (dotCenter s ep) p < SNAP * SNAP ∧
    ∀ d ∈ s.dots, d.cardId ≠ skip.cardId →
      distSq (dotCenter s ep) p ≤ distSq (dotCenter s d) p := by
  obtain ⟨g1, g2, g3, g4⟩ := snap_foldl_spec s p skip s.dots (none, SNAP * SNAP)
    (le_refl _) (fun _ => rfl) (by intro b hb; cases hb)
  obtain ⟨hmem, hcard, heq, hlt⟩ := g3 ep h
  refine ⟨?_, hcard, heq ▸ hlt, ?_⟩
  · rcases hmem with hmem | hmem
    · exact hmem
    · cases hmem
  · intro d hd hdcard
    exact heq ▸ g4 d hd hdcard

/-- A failed snap means every eligible endpoint lies at or beyond the snap
radius. -/
theorem nearestEndpoint_none_spec (s : ConnState) (p : Pt) (skip : Dot)
    (h : nearestEndpoint s p skip = none) :
    ∀ d ∈ s.dots, d.cardId ≠ skip.cardId → SNAP * SNAP ≤ distSq (dotCenter s d) p := by
  obtain ⟨g1, g2, g3, g4⟩ := snap_foldl_spec s p skip s.dots (none, SNAP * SNAP)
    (le_refl _) (fun _ => rfl) (by intro b hb; cases hb)
  intro d hd hdcard
  exact (g2 h) ▸ g4 d hd hdcard

/-- C4: for every pointer position and source endpoint the snap resolver
returns, whenever some endpoint of another card lies strictly within the snap
radius of 24, a nearest such endpoint (strictly inside the radius and
minimal), and returns nothing when every endpoint of another card is at
distance 24 or more; distances are compared squared, so the radius bound is
`SNAP * SNAP`. -/
theorem snap_radius_boundary (s : ConnState) (p : Pt) (skip : Dot) :
    (∀ ep, nearestEndpoint s p skip = some ep →
      ep ∈ s.dots ∧ ep.cardId ≠ skip.cardId ∧
      distSq (dotCenter s ep) p < SNAP * SNAP ∧
      ∀ d ∈ s.dots, d.cardId ≠ skip.cardId →
        distSq (dotCenter s ep) p ≤ distSq (dotCenter s d) p) ∧
    ((∃ d ∈ s.dots, d.cardId ≠ skip.cardId ∧ distSq (dotCenter s d) p < SNAP * SNAP) →
      ∃ ep, nearestEndpoint s p skip = some ep) ∧
    ((∀ d ∈ s.dots, d.cardId ≠ skip.cardId → SNAP * SNAP ≤ distSq (dotCenter s d) p) →
      nearestEndpoint s p skip = none) := by
  refine ⟨fun ep h => nearestEndpoint_some_spec s p skip ep h, ?_, ?_⟩
  · rintro ⟨d, hd, hdcard, hdlt⟩
    rcases hne : nearestEndpoint s p skip with _ | ep
    · exact absurd (nearestEndpoint_none_spec s p skip hne d hd hdcard) (not_le.mpr hdlt)
    · exact ⟨ep, rfl⟩
  · intro hall
    rcases hne : nearestEndpoint s p skip with _ | ep
    · rfl
    · obtain ⟨hmem, hcard, hlt, _⟩ := nearestEndpoint_some_spec s p skip ep hne
      exact absurd (hall ep hmem hcard) (not_le.mpr hlt)

/-- Witness for C4 on a concrete two-card state: an endpoint whose centre is
at distance 23 (one inside the radius) is returned, and when the only
eligible endpoint sits at distance 25 (one outside) the resolver returns
nothing. -/
theorem snap_radius_boundary_witness :
    distSq (dotCenter stateAB dotBLeft) ⟨477, 125⟩ = 23 * 23 ∧
    nearestEndpoint stateAB ⟨477, 125⟩ dotARight = some dotBLeft ∧
    distSq (dotCenter stateAB dotBLeft) ⟨475, 125⟩ = 25 * 25 ∧
    nearestEndpoint stateAB ⟨475, 125⟩ dotARight = none := by
  refine ⟨by with_unfolding_all decide, by with_unfolding_all decide,
    by with_unfolding_all decide, ?_⟩
  exact (snap_radius_boundary stateAB ⟨475, 125⟩ dotARight).2.2 (by with_unfolding_all decide)

/-- The dot constructor never touches the line store, the line counter, the
cards or the drawing record. -/
theorem createNewDot_frame (s : ConnState) (cid side : ℕ) (l t : ℚ) :
    (createNewDot s cid side l t).lines = s.lines ∧
    (createNewDot s cid side l t).lineCounter = s.lineCounter ∧
    (createNewDot s cid side l t).cards = s.cards ∧
    (createNewDot s cid side l t).drawing = s.drawing := by
  unfold createNewDot
  split <;> exact ⟨rfl, rfl, rfl, rfl⟩

/-- The candidate fold of the per-edge generator never touches the line
store, the line counter, the cards or the drawing record. -/
theorem foldl_createNewDot_frame (cid side : ℕ) :
    ∀ (ps : List (ℚ × ℚ)) (t : ConnState),
    (ps.foldl (fun u pr => createNewDot u cid side pr.1 pr.2) t).lines = t.lines ∧
    (ps.foldl (fun u pr => createNewDot u cid side pr.1 pr.2) t).lineCounter = t.lineCounter ∧
    (ps.foldl (fun u pr => createNewDot u cid side pr.1 pr.2) t).cards = t.cards ∧
    (ps.foldl (fun u pr => createNewDot u cid side pr.1 pr.2) t).drawing = t.drawing := by
  intro ps
  induction ps with
  | nil => intro t; exact ⟨rfl, rfl, rfl, rfl⟩
  | cons pr rest ih =>
    intro t
    obtain ⟨i1, i2, i3, i4⟩ := ih (createNewDot t cid side pr.1 pr.2)
    obtain ⟨f1, f2, f3, f4⟩ := createNewDot_frame t cid side pr.1 pr.2
    exact ⟨i1.trans f1, i2.trans f2, i3.trans f3, i4.trans f4⟩

/-- The generator entry point never touches the line store, the line
counter, the cards or the drawing record. -/
theorem addAdjacentDots_frame (s : ConnState) (cid side : ℕ) :
    (addAdjacentDots s cid side).lines = s.lines ∧
    (addAdjacentDots s cid side).lineCounter = s.lineCounter ∧
    (addAdjacentDots s cid side).cards = s.cards ∧
    (addAdjacentDots s cid side).drawing = s.drawing := by
  unfold addAdjacentDots createEdgeIntermediateDots
  split
  · exact foldl_createNewDot_frame cid side _ s
  · exact ⟨rfl, rfl, rfl, rfl⟩

/-- The commit path appends exactly one line, the drag source first and the
snapped target second, under the freshly incremented counter. -/
theorem finishDraw_lines (s : ConnState) (fromD toD : Dot) :
    (finishDraw s fromD toD).lines = s.lines ++ [Line.mk (s.lineCounter + 1) fromD toD] ∧
    (finishDraw s fromD toD).lineCounter = s.lineCounter + 1 := by
  unfold finishDraw
  obtain ⟨a1, a2, _, _⟩ := addAdjacentDots_frame
    (addAdjacentDots
      { s with
        lineCounter := s.lineCounter + 1,
        lines := s.lines ++ [Line.mk (s.lineCounter + 1) fromD toD],
        dots := setOcc (setOcc (s.dots) fromD.id true) toD.id true }
      fromD.cardId fromD.side) toD.cardId toD.side
  obtain ⟨b1, b2, _, _⟩ := addAdjacentDots_frame
    { s with
      lineCounter := s.lineCounter + 1,
      lines := s.lines ++ [Line.mk (s.lineCounter + 1) fromD toD],
      dots := setOcc (setOcc (s.dots) fromD.id true) toD.id true }
    fromD.cardId fromD.side
  exact ⟨a1.trans b1, a2.trans b2⟩

/-- Pointer-up either leaves the line store untouched (no active drawing, or
no snap target) or appends exactly the one committed connection from the
active drawing's source to the resolved target. -/
theorem pointerUp_lines_cases (s : ConnState) (p : Pt) :
    (pointerUp s p).lines = s.lines ∨
    ∃ fromD toD, s.drawing = some fromD ∧ nearestEndpoint s p fromD = some toD ∧
      (pointerUp s p).lines = s.lines ++ [Line.mk (s.lineCounter + 1) fromD toD] := by
  rcases hdraw : s.drawing with _ | fromD
  · exact Or.inl (by simp [pointerUp, hdraw])
  · rcases hsnap : nearestEndpoint s p fromD with _ | toD
    · exact Or.inl (by simp [pointerUp, hdraw, hsnap])
    · refine Or.inr ⟨fromD, toD, rfl, hsnap, ?_⟩
      have hlines := (finishDraw_lines s fromD toD).1
      simp only [pointerUp, hdraw, hsnap]
      exact hlines

/-- C5: the snap resolver never returns an endpoint of the source's own
card, and consequently pointer-up preserves the invariant that every stored
connection joins two different cards. -/
theorem no_self_connection (s : ConnState) (p : Pt) (fromD : Dot) :
    (∀ toD, nearestEndpoint s p fromD = some toD → toD.cardId ≠ fromD.cardId) ∧
    ((∀ l ∈ s.lines, l.fromDot.cardId ≠ l.toDot.cardId) →
      ∀ l ∈ (pointerUp s p).lines, l.fromDot.cardId ≠ l.toDot.cardId) := by
  constructor
  · intro toD h
    exact (nearestEndpoint_some_spec s p fromD toD h).2.1
  · intro hinv l hl
    rcases pointerUp_lines_cases s p with hsame | ⟨fr, toD, _, hsnap, happ⟩
    · exact hinv l (hsame ▸ hl)
    · rw [happ] at hl
      rcases List.mem_append.mp hl with hl | hl
      · exact hinv l hl
      · obtain rfl : Line.mk (s.lineCounter + 1) fr toD = l := List.mem_singleton.mp hl |>.symm
        exact fun hcc => (nearestEndpoint_some_spec s p fr toD hsnap).2.1 hcc.symm

/-- Witness for C5: in the concrete two-card state the resolver aims at card
B's LEFT dot, which is on a different card than the source, and the committed
state keeps the different-cards invariant. -/
theorem no_self_connection_witness :
    dotBLeft.cardId ≠ dotARight.cardId ∧
    (∀ l ∈ (pointerUp (startDraw stateAB dotARight) ⟨505, 125⟩).lines,
      l.fromDot.cardId ≠ l.toDot.cardId) := by
  refine ⟨?_, ?_⟩
  · exact (no_self_connection stateAB ⟨505, 125⟩ dotARight).1 dotBLeft
      (by with_unfolding_all decide)
  · exact (no_self_connection (startDraw stateAB dotARight) ⟨505, 125⟩ dotARight).2
      (by intro l hl; cases hl)

/-- C8: when pointer-up resolves no snap target the only state change is the
cleared drawing record: cards, endpoint set, occupancy flags, line store and
both counters are untouched and zero connections are created. -/
theorem cancelled_transition_frame (s : ConnState) (p : Pt) (fromD : Dot)
    (hdraw : s.drawing = some fromD)
    (hmiss : nearestEndpoint s p fromD = none) :
    pointerUp s p = { s with drawing := none } ∧
    (pointerUp s p).lines = s.lines ∧
    (pointerUp s p).dots = s.dots ∧
    (pointerUp s p).cards = s.cards ∧
    (pointerUp s p).lines.length = s.lines.length := by
  have h : pointerUp s p = { s with drawing := none } := by
    simp [pointerUp, hdraw, hmiss]
  exact ⟨h, by rw [h], by rw [h], by rw [h], by rw [h]⟩

/-- Witness for C8, the spec scenario of a release far from every endpoint:
dragging from card A's RIGHT dot and releasing at (400, 400), which is more
than 50 away from every dot, leaves every component of the state unchanged
except the cleared drawing record. -/
theorem cancelled_transition_frame_witness :
    pointerUp (startDraw stateAB dotARight) ⟨400, 400⟩ =
      { startDraw stateAB dotARight with drawing := none } ∧
    (pointerUp (startDraw stateAB dotARight) ⟨400, 400⟩).lines = [] := by
  have h := cancelled_transition_frame (startDraw stateAB dotARight) ⟨400, 400⟩ dotARight
    (by with_unfolding_all decide) (by with_unfolding_all decide)
  exact ⟨h.1, h.2.1⟩

/-- Membership through an occupancy update: a dot with the targeted identity
carries the new flag, any other dot is untouched. -/
theorem setOcc_mem_spec (dots : List Dot) (i : ℕ) (b : Bool) :
    ∀ d ∈ setOcc dots i b, (d.id = i → d.occupied = b) ∧ (d.id ≠ i → d ∈ dots) := by
  intro d hd
  obtain ⟨d0, hd0, hmap⟩ := List.mem_map.mp hd
  by_cases h0 : d0.id = i
  · rw [if_pos h0] at hmap
    constructor
    · intro _; rw [← hmap]
    · intro hne; exact absurd (by rw [← hmap]; exact h0) hne
  · rw [if_neg h0] at hmap
    exact ⟨fun hid => absurd (hmap ▸ hid) h0, fun _ => hmap ▸ hd0⟩

/-- The dot constructor only appends fresh unoccupied dots and never lowers
the identity counter. -/
theorem createNewDot_extends (s : ConnState) (cid side : ℕ) (l t : ℚ) :
    (∃ extra, (createNewDot s cid side l t).dots = s.dots ++ extra ∧
      ∀ d ∈ extra, d.occupied = false ∧ s.dotCounter ≤ d.id) ∧
    s.dotCounter ≤ (createNewDot s cid side l t).dotCounter := by
  unfold createNewDot
  split
  · exact ⟨⟨[], (List.append_nil _).symm, by intro d hd; cases hd⟩, le_refl _⟩
  · refine ⟨⟨[⟨s.dotCounter, cid, side, l, t, false⟩], rfl, ?_⟩, Nat.le_succ _⟩
    intro d hd
    obtain rfl : d = ⟨s.dotCounter, cid, side, l, t, false⟩ := List.mem_singleton.mp hd
    exact ⟨rfl, le_refl _⟩

/-- The candidate fold of the per-edge generator only appends fresh
unoccupied dots. -/
theorem foldl_createNewDot_extends (cid side : ℕ) :
    ∀ (ps : List (ℚ × ℚ)) (t : ConnState),
    (∃ extra, (ps.foldl (fun u pr => createNewDot u cid side pr.1 pr.2) t).dots =
        t.dots ++ extra ∧ ∀ d ∈ extra, d.occupied = false ∧ t.dotCounter ≤ d.id) ∧
    t.dotCounter ≤ (ps.foldl (fun u pr => createNewDot u cid side pr.1 pr.2) t).dotCounter := by
  intro ps
  induction ps with
  | nil =>
    intro t
    exact ⟨⟨[], (List.append_nil _).symm, by intro d hd; cases hd⟩, le_refl _⟩
  | cons pr rest ih =>
    intro t
    obtain ⟨⟨e1, he1, hp1⟩, hc1⟩ := createNewDot_extends t cid side pr.1 pr.2
    obtain ⟨⟨e2, he2, hp2⟩, hc2⟩ := ih (createNewDot t cid side pr.1 pr.2)
    refine ⟨⟨e1 ++ e2, by rw [List.foldl_cons, he2, he1, List.append_assoc], ?_⟩,
      le_trans hc1 (by rw [List.foldl_cons]; exact hc2)⟩
    intro d hd
    rcases List.mem_append.mp hd with hd | hd
    · exact hp1 d hd
    · exact ⟨(hp2 d hd).1, le_trans hc1 (hp2 d hd).2⟩

/-- The generator entry point only appends fresh unoccupied dots. -/
theorem addAdjacentDots_extends (s : ConnState) (cid side : ℕ) :
    (∃ extra, (addAdjacentDots s cid side).dots = s.dots ++ extra ∧
      ∀ d ∈ extra, d.occupied = false ∧ s.dotCounter ≤ d.id) ∧
    s.dotCounter ≤ (addAdjacentDots s cid side).dotCounter := by
  unfold addAdjacentDots createEdgeIntermediateDots
  split
  · exact foldl_createNewDot_extends cid side _ s
  · exact ⟨⟨[], (List.append_nil _).symm, by intro d hd; cases hd⟩, le_refl _⟩

/-- Occupancy of an already-stored dot identity survives the generator: the
appended dots all carry fresh identities. -/
theorem addAdjacentDots_occ_preserved (s : ConnState) (i : ℕ)
    (hi : i < s.dotCounter)
    (h : ∀ d ∈ s.dots, d.id = i → d.occupied = true) (cid side : ℕ) :
    (∀ d ∈ (addAdjacentDots s cid side).dots, d.id = i → d.occupied = true) ∧
    i < (addAdjacentDots s cid side).dotCounter := by
  obtain ⟨⟨extra, hx, hfresh⟩, hc⟩ := addAdjacentDots_extends s cid side
  refine ⟨?_, lt_of_lt_of_le hi hc⟩
  intro d hd hid
  rw [hx] at hd
  rcases List.mem_append.mp hd with hd | hd
  · exact h d hd hid
  · exact absurd (hid ▸ (hfresh d hd).2) (not_le.mpr hi)

/-- C7: when pointer-up resolves a snap target, exactly one connection is
appended to the store under the freshly incremented counter (fresh relative
to every stored id), its from-endpoint is the drag source and its to-endpoint
the snapped target, both of those endpoints are occupied afterwards, and the
resulting endpoint set is the one produced by running the Dynamic Endpoint
Generator on both involved cards after the marking. -/
theorem committed_transition_effects (s : ConnState) (p : Pt) (fromD toD : Dot)
    (hdraw : s.drawing = some fromD)
    (hsnap : nearestEndpoint s p fromD = some toD)
    (hfresh : ∀ l ∈ s.lines, l.id ≤ s.lineCounter)
    (hids : ∀ d ∈ s.dots, d.id < s.dotCounter)
    (hfrom : fromD ∈ s.dots) :
    (pointerUp s p).lines = s.lines ++ [Line.mk (s.lineCounter + 1) fromD toD] ∧
    (∀ l ∈ s.lines, l.id ≠ s.lineCounter + 1) ∧
    (∀ d ∈ (pointerUp s p).dots, (d.id = fromD.id ∨ d.id = toD.id) →
      d.occupied = true) ∧
    (pointerUp s p).dots =
      (addAdjacentDots (addAdjacentDots
        { s with
          lineCounter := s.lineCounter + 1,
          lines := s.lines ++ [Line.mk (s.lineCounter + 1) fromD toD],
          dots := setOcc (setOcc s.dots fromD.id true) toD.id true }
        fromD.cardId fromD.side) toD.cardId toD.side).dots := by
  have htoD : toD ∈ s.dots := (nearestEndpoint_some_spec s p fromD toD hsnap).1
  have hpu : pointerUp s p = { finishDraw s fromD toD with drawing := none } := by
    simp [pointerUp, hdraw, hsnap]
  have hfd : (pointerUp s p).dots =
      (addAdjacentDots (addAdjacentDots
        { s with
          lineCounter := s.lineCounter + 1,
          lines := s.lines ++ [Line.mk (s.lineCounter + 1) fromD toD],
          dots := setOcc (setOcc s.dots fromD.id true) toD.id true }
        fromD.cardId fromD.side) toD.cardId toD.side).dots := by
    rw [hpu]; rfl
  refine ⟨?_, ?_, ?_, hfd⟩
  · rw [hpu]
    exact (finishDraw_lines s fromD toD).1
  · intro l hl
    exact Nat.ne_of_lt (Nat.lt_succ_of_le (hfresh l hl))
  · have hbase_from : ∀ d ∈ setOcc (setOcc s.dots fromD.id true) toD.id true,
        d.id = fromD.id → d.occupied = true := by
      intro d hd hid
      by_cases hto : d.id = toD.id
      · exact (setOcc_mem_spec _ toD.id true d hd).1 hto
      · exact (setOcc_mem_spec _ fromD.id true d
          ((setOcc_mem_spec _ toD.id true d hd).2 hto)).1 hid
    have hbase_to : ∀ d ∈ setOcc (setOcc s.dots fromD.id true) toD.id true,
        d.id = toD.id → d.occupied = true := by
      intro d hd hid
      exact (setOcc_mem_spec _ toD.id true d hd).1 hid
    have hf1 := addAdjacentDots_occ_preserved
      { s with
        lineCounter := s.lineCounter + 1,
        lines := s.lines ++ [Line.mk (s.lineCounter + 1) fromD toD],
        dots := setOcc (setOcc s.dots fromD.id true) toD.id true }
      fromD.id (hids fromD hfrom) hbase_from fromD.cardId fromD.side
    have hf2 := addAdjacentDots_occ_preserved _ fromD.id hf1.2 hf1.1 toD.cardId toD.side
    have ht1 := addAdjacentDots_occ_preserved
      { s with
        lineCounter := s.lineCounter + 1,
        lines := s.lines ++ [Line.mk (s.lineCounter + 1) fromD toD],
        dots := setOcc (setOcc s.dots fromD.id true) toD.id true }
      toD.id (hids toD htoD) hbase_to fromD.cardId fromD.side
    have ht2 := addAdjacentDots_occ_preserved _ toD.id ht1.2 ht1.1 toD.cardId toD.side
    intro d hd hor
    rw [hfd] at hd
    rcases hor with hid | hid
    · exact hf2.1 d hd hid
    · exact ht2.1 d hd hid

/-- Witness for C7, the spec scenario: dragging from card A's RIGHT midpoint
and releasing at (505, 125), within 10 of card B's LEFT midpoint, commits the
single connection RIGHT(1) to LEFT(3) with both positions 0.5 and both
endpoints occupied. -/
theorem committed_transition_effects_witness :
    (pointerUp (startDraw stateAB dotARight) ⟨505, 125⟩).lines =
      [Line.mk 1 dotARight dotBLeft] ∧
    dotARight.side = 1 ∧ dotBLeft.side = 3 ∧
    getDotPosition dotARight = 1/2 ∧ getDotPosition dotBLeft = 1/2 ∧
    (∀ d ∈ (pointerUp (startDraw stateAB dotARight) ⟨505, 125⟩).dots,
      (d.id = dotARight.id ∨ d.id = dotBLeft.id) → d.occupied = true) := by
  have h := committed_transition_effects (startDraw stateAB dotARight) ⟨505, 125⟩
    dotARight dotBLeft rfl (by with_unfolding_all decide)
    (by intro l hl; cases hl) (by with_unfolding_all decide)
    (by with_unfolding_all decide)
  refine ⟨h.1, by with_unfolding_all decide, by with_unfolding_all decide,
    by with_unfolding_all decide, by with_unfolding_all decide, h.2.2.1⟩

/-- Separation only concerns card, left and top, so any update that keeps
those fields (such as an occupancy flip) preserves it. -/
theorem pairwise_sepR_map (dots : List Dot) (f : Dot → Dot)
    (hf : ∀ d, (f d).cardId = d.cardId ∧ (f d).left = d.left ∧ (f d).top = d.top)
    (h : List.Pairwise SepR dots) : List.Pairwise SepR (dots.map f) := by
  rw [List.pairwise_map]
  refine h.imp ?_
  intro a b hab
  unfold SepR at hab ⊢
  rw [(hf a).1, (hf a).2.1, (hf a).2.2, (hf b).1, (hf b).2.1, (hf b).2.2]
  exact hab

/-- An occupancy update preserves separation. -/
theorem setOcc_sep (dots : List Dot) (i : ℕ) (b : Bool)
    (h : List.Pairwise SepR dots) : List.Pairwise SepR (setOcc dots i b) := by
  refine pairwise_sepR_map dots _ ?_ h
  intro d
  by_cases hd : d.id = i
  · rw [if_pos hd]; exact ⟨rfl, rfl, rfl⟩
  · rw [if_neg hd]; exact ⟨rfl, rfl, rfl⟩

/-- The proximity guard of `createNewDot` is exactly what keeps the dot set
separated: a dot is only appended when every existing dot of the card is at
least 0.1 away. -/
theorem createNewDot_sep (s : ConnState) (cid side : ℕ) (l t : ℚ)
    (h : Separated s) : Separated (createNewDot s cid side l t) := by
  unfold Separated createNewDot
  split
  · exact h
  · rename_i hg
    show List.Pairwise SepR (s.dots ++ [⟨s.dotCounter, cid, side, l, t, false⟩])
    have hg' : ∀ d ∈ s.dots, d.cardId = cid →
        ¬((d.left - l) * (d.left - l) + (d.top - t) * (d.top - t) < 1 / 100) := by
      intro d hd hdc hlt
      exact hg (List.any_eq_true.mpr ⟨d, hd, decide_eq_true ⟨hdc, hlt⟩⟩)
    refine List.pairwise_append.mpr ⟨h, List.pairwise_singleton _ _, ?_⟩
    intro a ha b hb
    obtain rfl : b = ⟨s.dotCounter, cid, side, l, t, false⟩ := List.mem_singleton.mp hb
    intro hcard
    exact not_lt.mp (hg' a ha hcard)

/-- The candidate fold of the per-edge generator preserves separation. -/
theorem foldl_createNewDot_sep (cid side : ℕ) :
    ∀ (ps : List (ℚ × ℚ)) (t : ConnState), Separated t →
    Separated (ps.foldl (fun u pr => createNewDot u cid side pr.1 pr.2) t) := by
  intro ps
  induction ps with
  | nil => intro t ht; exact ht
  | cons pr rest ih =>
    intro t ht
    exact ih (createNewDot t cid side pr.1 pr.2) (createNewDot_sep t cid side pr.1 pr.2 ht)

/-- The generator entry point preserves separation. -/
theorem addAdjacentDots_sep (s : ConnState) (cid side : ℕ)
    (h : Separated s) : Separated (addAdjacentDots s cid side) := by
  unfold addAdjacentDots createEdgeIntermediateDots
  split
  · exact foldl_createNewDot_sep cid side _ s h
  · exact h

/-- The whole commit path preserves separation: occupancy marking keeps the
geometry, and the generator only creates guarded dots. -/
theorem finishDraw_sep (s : ConnState) (fromD toD : Dot)
    (h : Separated s) : Separated (finishDraw s fromD toD) := by
  unfold finishDraw
  refine addAdjacentDots_sep _ toD.cardId toD.side
    (addAdjacentDots_sep _ fromD.cardId fromD.side ?_)
  show List.Pairwise SepR (setOcc (setOcc s.dots fromD.id true) toD.id true)
  exact setOcc_sep _ toD.id true (setOcc_sep _ fromD.id true h)

/-- Pointer-up preserves separation in every case. -/
theorem pointerUp_sep (s : ConnState) (p : Pt)
    (h : Separated s) : Separated (pointerUp s p) := by
  rcases hdraw : s.drawing with _ | fromD
  · have heq : pointerUp s p = s := by simp [pointerUp, hdraw]
    rwa [heq]
  · rcases hsnap : nearestEndpoint s p fromD with _ | toD
    · have heq : pointerUp s p = { s with drawing := none } := by
        simp [pointerUp, hdraw, hsnap]
      rw [heq]; exact h
    · have heq : pointerUp s p = { finishDraw s fromD toD with drawing := none } := by
        simp [pointerUp, hdraw, hsnap]
      rw [heq]; exact finishDraw_sep s fromD toD h

/-- C6 (amended): under the connectors.js generator, any sequence of drag
gestures applied to a separated state leaves the state separated — no two
dots of the same card (in particular of the same edge) ever come within the
proximity threshold 0.1 of each other, because `createNewDot` skips any
candidate midpoint within 0.1 of an existing dot. -/
theorem endpoint_density_invariant (s : ConnState) (h : Separated s)
    (gs : List (Dot × Pt)) : Separated (applyGestures gs s) := by
  induction gs generalizing s with
  | nil => exact h
  | cons g rest ih =>
    have hone : Separated (gesture s g) := by
      unfold gesture
      exact pointerUp_sep (startDraw s g.1) g.2 (by
        show List.Pairwise SepR (startDraw s g.1).dots
        exact h)
    exact ih (gesture s g) hone

/-- Witness for C6: the concrete two-card state is separated, and it stays
separated after the commit gesture from A's RIGHT dot to B's LEFT dot. -/
theorem endpoint_density_invariant_witness :
    Separated stateAB ∧
    Separated (applyGestures [(dotARight, ⟨505, 125⟩)] stateAB) := by
  have hsep : Separated stateAB := by with_unfolding_all decide
  exact ⟨hsep, endpoint_density_invariant stateAB hsep [(dotARight, ⟨505, 125⟩)]⟩

/-- Counterexample for C6 as stated: in the ConnectionController generator
(which has no proximity guard), committing card endpoints at positions 0.5
and then 0.25 of the TOP edge of a default card recreates the midpoint 0.75,
leaving two dots of the same edge at distance 0 — the claimed density
invariant fails after two committed connections. -/
theorem endpoint_density_counterexample :
    ¬ CtrlEdgeSeparated
      (ctrlCommitEndpoint (ctrlCommitEndpoint ctrlDefaultDots 0 (1/2)) 0 (1/4)) := by
  with_unfolding_all decide

/-- The recursive gap scan is exactly the filter-and-map over adjacent
pairs. -/
theorem midgaps_eq_zip (l : List ℚ) :
    midgaps l = (((l.zip l.tail).filter (fun pr => 1/10 < pr.2 - pr.1)).map
      (fun pr => (pr.1 + pr.2) / 2)) := by
  induction l with
  | nil => rfl
  | cons p1 tl ih =>
    cases tl with
    | nil => rfl
    | cons p2 rest =>
      show (if 1 / 10 < p2 - p1 then [(p1 + p2) / 2] else []) ++ midgaps (p2 :: rest) = _
      rw [ih]
      simp only [List.tail_cons, List.zip_cons_cons, List.filter_cons]
      by_cases hc : 1/10 < p2 - p1
      · rw [if_pos hc, if_pos (decide_eq_true hc), List.map_cons, List.singleton_append]
      · rw [if_neg hc, if_neg (fun hcontra => hc (of_decide_eq_true hcontra)),
          List.nil_append]

/-- A side step leaves every other side's dots untouched. -/
theorem ctrlSideStep_filter_ne (dots : List CtrlDot) (sA sB : ℕ) (h : sA ≠ sB) :
    (ctrlSideStep dots sB).filter (fun d => d.side = sA) =
      dots.filter (fun d => d.side = sA) := by
  simp only [ctrlSideStep]
  split
  · rfl
  · rw [List.filter_append]
    have hnil : ∀ (L : List ℚ), List.filter (fun d => decide (d.side = sA))
        (List.map (fun p => CtrlDot.mk sB p false) L) = [] := by
      intro L
      rw [List.filter_eq_nil_iff]
      intro d hd
      obtain ⟨p, _, rfl⟩ := List.mem_map.mp hd
      simpa using Ne.symm h
    rw [hnil, List.append_nil]

/-- A side step appends to its own side exactly the generated midpoints of
the occupied positions (none when the side has no occupied dot). -/
theorem ctrlSideStep_filter_eq (dots : List CtrlDot) (side : ℕ) :
    (ctrlSideStep dots side).filter (fun d => d.side = side) =
      dots.filter (fun d => d.side = side) ++
      (if occupiedPositionsSorted dots side = [] then []
       else (calculateNewDotPositions (occupiedPositionsSorted dots side)).map
         (fun p => CtrlDot.mk side p false)) := by
  simp only [ctrlSideStep]
  split
  · rename_i hocc
    have hops : occupiedPositionsSorted dots side = [] := by
      unfold occupiedPositionsSorted
      rw [hocc, List.map_nil]
    rw [hops, if_pos rfl, List.append_nil]
  · rename_i hocc
    have hops : ¬(occupiedPositionsSorted dots side = []) := by
      unfold occupiedPositionsSorted
      rw [List.map_eq_nil_iff]
      exact hocc
    rw [if_neg hops, List.filter_append]
    have hkeep : ∀ (L : List ℚ), List.filter (fun d => decide (d.side = side))
        (List.map (fun p => CtrlDot.mk side p false) L) =
        List.map (fun p => CtrlDot.mk side p false) L := by
      intro L
      rw [List.filter_eq_self]
      intro d hd
      obtain ⟨p, _, rfl⟩ := List.mem_map.mp hd
      simp
    rw [hkeep]
    rfl

/-- Transport of the occupied-position list across a foreign side step. -/
theorem occupiedPositionsSorted_sideStep_ne (dots : List CtrlDot) (sA sB : ℕ)
    (h : sA ≠ sB) :
    occupiedPositionsSorted (ctrlSideStep dots sB) sA =
      occupiedPositionsSorted dots sA := by
  unfold occupiedPositionsSorted
  rw [ctrlSideStep_filter_ne dots sA sB h]

/-- Transport of side positions across a foreign side step. -/
theorem sidePositions_sideStep_ne (dots : List CtrlDot) (sA sB : ℕ) (h : sA ≠ sB) :
    sidePositions (ctrlSideStep dots sB) sA = sidePositions dots sA := by
  unfold sidePositions
  rw [ctrlSideStep_filter_ne dots sA sB h]

/-- The own-side effect of one side step at the position level. -/
theorem sidePositions_sideStep_eq (dots : List CtrlDot) (side : ℕ) :
    sidePositions (ctrlSideStep dots side) side =
      sidePositions dots side ++
      (if occupiedPositionsSorted dots side = [] then []
       else calculateNewDotPositions (occupiedPositionsSorted dots side)) := by
  unfold sidePositions
  rw [ctrlSideStep_filter_eq, List.map_append]
  congr 1
  by_cases hocc : occupiedPositionsSorted dots side = []
  · rw [if_pos hocc, if_pos hocc]
    rfl
  · rw [if_neg hocc, if_neg hocc, List.map_map]
    exact List.map_id _

/-- C2 (amended): for every edge side, the ConnectionController generator
takes the OCCUPIED endpoints of that edge sorted by position ascending — not
all endpoints — leaves the edge alone when none is occupied, and otherwise
prepends 0, appends 1 and appends one new unoccupied endpoint at the midpoint
of every adjacent pair of that bounded list whose gap exceeds the 0.1
threshold. -/
theorem generator_occupied_endpoints_midpoints (dots : List CtrlDot) (side : ℕ)
    (h : side < 4) :
    sidePositions (ctrlGenerateNewDots dots) side =
      sidePositions dots side ++
      (if occupiedPositionsSorted dots side = [] then []
       else (((boundedOccupied dots side).zip (boundedOccupied dots side).tail).filter
          (fun pr => 1/10 < pr.2 - pr.1)).map (fun pr => (pr.1 + pr.2) / 2)) := by
  have hzip : calculateNewDotPositions (occupiedPositionsSorted dots side) =
      (((boundedOccupied dots side).zip (boundedOccupied dots side).tail).filter
        (fun pr => 1/10 < pr.2 - pr.1)).map (fun pr => (pr.1 + pr.2) / 2) := by
    unfold calculateNewDotPositions boundedOccupied
    exact midgaps_eq_zip _
  rw [← hzip]
  unfold ctrlGenerateNewDots
  rw [show List.range 4 = [0, 1, 2, 3] by rfl]
  simp only [List.foldl_cons, List.foldl_nil]
  interval_cases side
  · rw [sidePositions_sideStep_ne _ 0 3 (by decide),
      sidePositions_sideStep_ne _ 0 2 (by decide),
      sidePositions_sideStep_ne _ 0 1 (by decide),
      sidePositions_sideStep_eq]
  · rw [sidePositions_sideStep_ne _ 1 3 (by decide),
      sidePositions_sideStep_ne _ 1 2 (by decide),
      sidePositions_sideStep_eq,
      sidePositions_sideStep_ne _ 1 0 (by decide),
      occupiedPositionsSorted_sideStep_ne _ 1 0 (by decide)]
  · rw [sidePositions_sideStep_ne _ 2 3 (by decide),
      sidePositions_sideStep_eq,
      sidePositions_sideStep_ne _ 2 1 (by decide),
      sidePositions_sideStep_ne _ 2 0 (by decide),
      occupiedPositionsSorted_sideStep_ne _ 2 1 (by decide),
      occupiedPositionsSorted_sideStep_ne _ 2 0 (by decide)]
  · rw [sidePositions_sideStep_eq,
      sidePositions_sideStep_ne _ 3 2 (by decide),
      sidePositions_sideStep_ne _ 3 1 (by decide),
      sidePositions_sideStep_ne _ 3 0 (by decide),
      occupiedPositionsSorted_sideStep_ne _ 3 2 (by decide),
      occupiedPositionsSorted_sideStep_ne _ 3 1 (by decide),
      occupiedPositionsSorted_sideStep_ne _ 3 0 (by decide)]

/-- Counterexample for C2 as stated: on an edge holding an occupied dot at
0.5 and an unoccupied dot at 0.2, the generator does NOT produce the
midpoints of the bounded list of ALL endpoint positions (which would be 0.1,
0.35 and 0.75): it only considers the occupied endpoint and creates 0.25 and
0.75. -/
theorem generator_all_endpoints_counterexample :
    ¬ (sidePositions (ctrlGenerateNewDots
        [⟨0, 1/2, true⟩, ⟨0, 1/5, false⟩]) 0 =
      sidePositions [⟨0, 1/2, true⟩, ⟨0, 1/5, false⟩] 0 ++
        specClaimedNewDotPositions
          (sidePositions [⟨0, 1/2, true⟩, ⟨0, 1/5, false⟩] 0)) := by
  with_unfolding_all decide

/-- Witness for C2 on the same concrete edge: the amended description matches
the generator, which appends exactly the midpoints 0.25 and 0.75 computed
from the occupied position 0.5. -/
theorem generator_occupied_endpoints_midpoints_witness :
    (sidePositions (ctrlGenerateNewDots [⟨0, 1/2, true⟩, ⟨0, 1/5, false⟩]) 0 =
      sidePositions [⟨0, 1/2, true⟩, ⟨0, 1/5, false⟩] 0 ++
      (if occupiedPositionsSorted [⟨0, 1/2, true⟩, ⟨0, 1/5, false⟩] 0 = [] then []
       else (((boundedOccupied [⟨0, 1/2, true⟩, ⟨0, 1/5, false⟩] 0).zip
          (boundedOccupied [⟨0, 1/2, true⟩, ⟨0, 1/5, false⟩] 0).tail).filter
          (fun pr => 1/10 < pr.2 - pr.1)).map (fun pr => (pr.1 + pr.2) / 2))) ∧
    sidePositions (ctrlGenerateNewDots [⟨0, 1/2, true⟩, ⟨0, 1/5, false⟩]) 0 =
      [1/2, 1/5, 1/4, 3/4] := by
  exact ⟨generator_occupied_endpoints_midpoints _ 0 (by decide),
    by with_unfolding_all decide⟩

/-- A resolved dot lies in the store and carries the requested card and
side. -/
theorem findDotAtSide_some_spec (s : ConnState) (cid side : ℕ) (d : Dot)
    (h : findDotAtSide s cid side = some d) :
    d ∈ s.dots ∧ d.cardId = cid ∧ d.side = side := by
  have hmemside : ∀ x ∈ dotsOnSide s cid side, x ∈ s.dots ∧ x.cardId = cid ∧ x.side = side := by
    intro x hx
    have hf := List.mem_filter.mp hx
    refine ⟨hf.1, ?_⟩
    simpa using hf.2
  rcases hds : dotsOnSide s cid side with _ | ⟨first, rest⟩
  · simp only [findDotAtSide, hds] at h
    exact Option.noConfusion h
  · simp only [findDotAtSide, hds, Option.some.injEq] at h
    rcases hfind : (first :: rest).find? (fun x => !x.occupied) with _ | f
    · rw [hfind] at h
      simp only [Option.getD_none] at h
      refine hmemside d ?_
      rw [hds, ← h]
      exact List.mem_cons_self first rest
    · rw [hfind] at h
      simp only [Option.getD_some] at h
      refine hmemside d ?_
      rw [hds, ← h]
      exact List.mem_of_find?_eq_some hfind

/-- When some dot of the requested card and side exists, resolution
succeeds. -/
theorem findDotAtSide_isSome (s : ConnState) (cid side : ℕ)
    (h : ∃ d ∈ s.dots, d.cardId = cid ∧ d.side = side) :
    ∃ d0, findDotAtSide s cid side = some d0 := by
  obtain ⟨d, hd, hdc, hdside⟩ := h
  have hmem : d ∈ dotsOnSide s cid side :=
    List.mem_filter.mpr ⟨hd, by simp [hdc, hdside]⟩
  rcases hds : dotsOnSide s cid side with _ | ⟨first, rest⟩
  · rw [hds] at hmem; cases hmem
  · refine ⟨(List.find? (fun x => !x.occupied) (first :: rest)).getD first, ?_⟩
    simp only [findDotAtSide, hds]

/-- When some stored card carries the requested id, lookup succeeds. -/
theorem findCard_isSome (s : ConnState) (cid : ℕ)
    (h : ∃ c ∈ s.cards, c.id = cid) : ∃ c, findCard s cid = some c := by
  obtain ⟨c, hc, hcid⟩ := h
  rcases hfc : findCard s cid with _ | c0
  · have := List.find?_eq_none.mp hfc c hc
    simp [hcid] at this
  · exact ⟨c0, rfl⟩

/-- Card-and-side coverage survives an occupancy update. -/
theorem setOcc_cover (dots : List Dot) (i : ℕ) (b : Bool) (cid side : ℕ)
    (h : ∃ d ∈ dots, d.cardId = cid ∧ d.side = side) :
    ∃ d ∈ setOcc dots i b, d.cardId = cid ∧ d.side = side := by
  obtain ⟨d, hd, hdc, hds⟩ := h
  refine ⟨_, List.mem_map_of_mem _ hd, ?_⟩
  by_cases hid : d.id = i
  · rw [if_pos hid]; exact ⟨hdc, hds⟩
  · rw [if_neg hid]; exact ⟨hdc, hds⟩

/-- Card-and-side coverage survives the generator (dots are only added). -/
theorem addAdjacentDots_cover (s : ConnState) (cg sg cid side : ℕ)
    (h : ∃ d ∈ s.dots, d.cardId = cid ∧ d.side = side) :
    ∃ d ∈ (addAdjacentDots s cg sg).dots, d.cardId = cid ∧ d.side = side := by
  obtain ⟨⟨extra, hx, _⟩, _⟩ := addAdjacentDots_extends s cg sg
  obtain ⟨d, hd, hprops⟩ := h
  exact ⟨d, hx ▸ List.mem_append_left extra hd, hprops⟩

/-- One resolvable record replayed through `createLineFromSaved` appends one
line carrying exactly the record's card-and-side data, keeps the cards and
preserves card-and-side coverage of the dot store. -/
theorem createLineFromSaved_step (t : ConnState) (r : SavedConn)
    (h : Resolvable t r) :
    (createLineFromSaved t r).cards = t.cards ∧
    (createLineFromSaved t r).lines.map tuple4 =
      t.lines.map tuple4 ++ [(r.fromCardId, r.fromSide, r.toCardId, r.toSide)] ∧
    ∀ cid side, (∃ d ∈ t.dots, d.cardId = cid ∧ d.side = side) →
      ∃ d ∈ (createLineFromSaved t r).dots, d.cardId = cid ∧ d.side = side := by
  obtain ⟨hc1, hc2, hd1, hd2⟩ := h
  obtain ⟨cf, hcf⟩ := findCard_isSome t r.fromCardId hc1
  obtain ⟨ct, hct⟩ := findCard_isSome t r.toCardId hc2
  obtain ⟨df, hdf⟩ := findDotAtSide_isSome t r.fromCardId r.fromSide hd1
  obtain ⟨dt, hdt⟩ := findDotAtSide_isSome t r.toCardId r.toSide hd2
  obtain ⟨_, hdfc, hdfs⟩ := findDotAtSide_some_spec t _ _ df hdf
  obtain ⟨_, hdtc, hdts⟩ := findDotAtSide_some_spec t _ _ dt hdt
  have heq : createLineFromSaved t r =
      addAdjacentDots (addAdjacentDots
        { t with
          lineCounter := t.lineCounter + 1,
          lines := t.lines ++ [Line.mk (t.lineCounter + 1) df dt],
          dots := setOcc (setOcc t.dots df.id true) dt.id true }
        df.cardId df.side) dt.cardId dt.side := by
    simp [createLineFromSaved, hcf, hct, hdf, hdt]
  rw [heq]
  obtain ⟨a1, _, a3, _⟩ := addAdjacentDots_frame
    (addAdjacentDots
      { t with
        lineCounter := t.lineCounter + 1,
        lines := t.lines ++ [Line.mk (t.lineCounter + 1) df dt],
        dots := setOcc (setOcc t.dots df.id true) dt.id true }
      df.cardId df.side) dt.cardId dt.side
  obtain ⟨b1, _, b3, _⟩ := addAdjacentDots_frame
    { t with
      lineCounter := t.lineCounter + 1,
      lines := t.lines ++ [Line.mk (t.lineCounter + 1) df dt],
      dots := setOcc (setOcc t.dots df.id true) dt.id true }
    df.cardId df.side
  refine ⟨a3.trans b3, ?_, ?_⟩
  · rw [a1, b1]
    show (t.lines ++ [Line.mk (t.lineCounter + 1) df dt]).map tuple4 = _
    rw [List.map_append]
    simp [tuple4, hdfc, hdfs, hdtc, hdts]
  · intro cid side hcover
    exact addAdjacentDots_cover _ dt.cardId dt.side cid side
      (addAdjacentDots_cover _ df.cardId df.side cid side
        (setOcc_cover _ dt.id true cid side (setOcc_cover _ df.id true cid side hcover)))

/-- Replaying any list of records all resolvable against the current state
appends, in order, one line per record with exactly the record's
card-and-side data. -/
theorem deserialize_resolvable_all :
    ∀ (rs : List SavedConn) (t : ConnState), (∀ r ∈ rs, Resolvable t r) →
    (deserialize rs t).lines.map tuple4 =
      t.lines.map tuple4 ++
        rs.map (fun r => (r.fromCardId, r.fromSide, r.toCardId, r.toSide)) := by
  intro rs
  induction rs with
  | nil =>
    intro t _
    simp [deserialize]
  | cons r rest ih =>
    intro t h
    have hr := h r (List.mem_cons_self r rest)
    obtain ⟨hcards, hlines, hcover⟩ := createLineFromSaved_step t r hr
    have hrest : ∀ r2 ∈ rest, Resolvable (createLineFromSaved t r) r2 := by
      intro r2 hr2
      obtain ⟨g1, g2, g3, g4⟩ := h r2 (List.mem_cons_of_mem r hr2)
      exact ⟨by rw [hcards]; exact g1, by rw [hcards]; exact g2,
        hcover _ _ g3, hcover _ _ g4⟩
    show (deserialize rest (createLineFromSaved t r)).lines.map tuple4 = _
    rw [ih (createLineFromSaved t r) hrest, hlines]
    simp

/-- C1 (amended): serialising and re-deserialising a connection set whose
records all resolve yields a connection list with identical
(fromCardId, fromSide, toCardId, toSide) tuples in the same order; the
positions are not serialised, so only the card-and-side data round-trips. -/
theorem roundTrip_preserves_card_side_tuples (s : ConnState)
    (h : ∀ l ∈ s.lines, Resolvable (clearAllLines s)
      ⟨l.fromDot.cardId, l.fromDot.side, l.toDot.cardId, l.toDot.side⟩) :
    (deserialize (getLines s) (clearAllLines s)).lines.map tuple4 =
      s.lines.map tuple4 := by
  have hall : ∀ r ∈ getLines s, Resolvable (clearAllLines s) r := by
    intro r hr
    obtain ⟨l, hl, rfl⟩ := List.mem_map.mp hr
    exact h l hl
  rw [deserialize_resolvable_all (getLines s) (clearAllLines s) hall]
  have hnil : (clearAllLines s).lines.map tuple4 = [] := rfl
  rw [hnil, List.nil_append]
  unfold getLines
  rw [List.map_map]
  rfl

/-- Counterexample for C1 as stated: the serialised records carry no
positions, so after a round trip the recreated connection resolves to card
A's first unoccupied RIGHT dot at position 0.5 instead of the original
endpoint at position 0.25 — the full 6-tuples with positions differ. -/
theorem roundTrip_position_counterexample :
    ¬ ((deserialize (getLines stateRT) (clearAllLines stateRT)).lines.map tuple6 =
      stateRT.lines.map tuple6) := by
  with_unfolding_all decide

/-- Witness for C1 on the same concrete state: every record resolves, and
the card-and-side 4-tuples survive the round trip unchanged. -/
theorem roundTrip_preserves_card_side_tuples_witness :
    (deserialize (getLines stateRT) (clearAllLines stateRT)).lines.map tuple4 =
      stateRT.lines.map tuple4 ∧
    stateRT.lines.map tuple4 = [(1, 1, 2, 3)] := by
  exact ⟨roundTrip_preserves_card_side_tuples stateRT (by with_unfolding_all decide),
    by with_unfolding_all decide⟩

/-- A successful card lookup returns a stored card with the requested id. -/
theorem findCard_some_spec (s : ConnState) (cid : ℕ) (c : CardGeom)
    (h : findCard s cid = some c) : c ∈ s.cards ∧ c.id = cid := by
  refine ⟨List.mem_of_find?_eq_some h, ?_⟩
  have := List.find?_some h
  simpa using this

/-- An unresolvable record (missing card or no dot on the requested side) is
skipped by `createConnectionFromSaved` with no state change at all. -/
theorem createConnectionFromSaved_unresolvable (t : ConnState) (r : SavedConn)
    (h : ¬ Resolvable t r) : createConnectionFromSaved t r = t := by
  rcases hcf : findCard t r.fromCardId with _ | cf
  · simp [createConnectionFromSaved, hcf]
  rcases hct : findCard t r.toCardId with _ | ct
  · simp [createConnectionFromSaved, hcf, hct]
  rcases hdf : findDotAtSide t r.fromCardId r.fromSide with _ | df
  · simp [createConnectionFromSaved, hcf, hct, hdf]
  rcases hdt : findDotAtSide t r.toCardId r.toSide with _ | dt
  · simp [createConnectionFromSaved, hcf, hct, hdf, hdt]
  exfalso
  apply h
  obtain ⟨hcf1, hcf2⟩ := findCard_some_spec t r.fromCardId cf hcf
  obtain ⟨hct1, hct2⟩ := findCard_some_spec t r.toCardId ct hct
  obtain ⟨hdf1, hdf2, hdf3⟩ := findDotAtSide_some_spec t _ _ df hdf
  obtain ⟨hdt1, hdt2, hdt3⟩ := findDotAtSide_some_spec t _ _ dt hdt
  exact ⟨⟨cf, hcf1, hcf2⟩, ⟨ct, hct1, hct2⟩, ⟨df, hdf1, hdf2, hdf3⟩,
    ⟨dt, hdt1, hdt2, hdt3⟩⟩

/-- `createConnectionFromSaved` never changes the cards or any dot's card and
side (it only touches occupancy, lines and the counter). -/
theorem createConnectionFromSaved_inventory (t : ConnState) (r : SavedConn) :
    (createConnectionFromSaved t r).cards = t.cards ∧
    (createConnectionFromSaved t r).dots.map (fun d => (d.cardId, d.side)) =
      t.dots.map (fun d => (d.cardId, d.side)) := by
  unfold createConnectionFromSaved
  split
  · split
    · refine ⟨rfl, ?_⟩
      show (setOcc (setOcc t.dots _ true) _ true).map (fun d => (d.cardId, d.side)) = _
      unfold setOcc
      rw [List.map_map, List.map_map]
      apply List.map_congr_left
      intro d _
      by_cases h1 : d.id = (match findDotAtSide t r.fromCardId r.fromSide with
        | some fd => fd
        | none => d).id
      all_goals simp only [Function.comp]
      all_goals split <;> split <;> rfl
    · exact ⟨rfl, rfl⟩
  · exact ⟨rfl, rfl⟩

/-- Resolvability only depends on the cards and the card-and-side inventory
of the dot store. -/
theorem resolvable_of_inventory (t u : ConnState)
    (hc : u.cards = t.cards)
    (hd : u.dots.map (fun d => (d.cardId, d.side)) =
      t.dots.map (fun d => (d.cardId, d.side)))
    (r : SavedConn) : Resolvable u r ↔ Resolvable t r := by
  have hcover : ∀ cid side, (∃ d ∈ u.dots, d.cardId = cid ∧ d.side = side) ↔
      (∃ d ∈ t.dots, d.cardId = cid ∧ d.side = side) := by
    intro cid side
    constructor
    · rintro ⟨d, hdmem, h1, h2⟩
      have : ((cid, side) : ℕ × ℕ) ∈ t.dots.map (fun d => (d.cardId, d.side)) := by
        rw [← hd]
        exact List.mem_map.mpr ⟨d, hdmem, by rw [h1, h2]⟩
      obtain ⟨d2, hd2, hpr⟩ := List.mem_map.mp this
      exact ⟨d2, hd2, (Prod.mk.injEq _ _ _ _).mp hpr⟩
    · rintro ⟨d, hdmem, h1, h2⟩
      have : ((cid, side) : ℕ × ℕ) ∈ u.dots.map (fun d => (d.cardId, d.side)) := by
        rw [hd]
        exact List.mem_map.mpr ⟨d, hdmem, by rw [h1, h2]⟩
      obtain ⟨d2, hd2, hpr⟩ := List.mem_map.mp this
      exact ⟨d2, hd2, (Prod.mk.injEq _ _ _ _).mp hpr⟩
  unfold Resolvable
  rw [hc]
  simp only [hcover]

/-- Replaying any record list never changes resolvability of a further
record. -/
theorem deserializeCM_resolvable_iff :
    ∀ (l : List SavedConn) (t : ConnState) (r : SavedConn),
    (Resolvable (deserializeCM l t) r ↔ Resolvable t r) := by
  intro l
  induction l with
  | nil => intro t r; exact Iff.rfl
  | cons r0 rest ih =>
    intro t r
    obtain ⟨hc, hd⟩ := createConnectionFromSaved_inventory t r0
    show Resolvable (deserializeCM rest (createConnectionFromSaved t r0)) r ↔ _
    rw [ih (createConnectionFromSaved t r0) r]
    exact resolvable_of_inventory t (createConnectionFromSaved t r0) hc hd r

/-- C9: a record whose card does not exist (or whose side has no dot)
creates nothing and mutates nothing, and replaying a list containing it
equals replaying the list without it — every remaining well-referenced
record is still applied. -/
theorem deserialization_skip_and_continue (t : ConnState) (r : SavedConn)
    (h : ¬ Resolvable t r) (l1 l2 : List SavedConn) :
    createConnectionFromSaved t r = t ∧
    deserializeCM (l1 ++ r :: l2) t = deserializeCM (l1 ++ l2) t := by
  refine ⟨createConnectionFromSaved_unresolvable t r h, ?_⟩
  unfold deserializeCM
  rw [List.foldl_append, List.foldl_append, List.foldl_cons]
  congr 1
  apply createConnectionFromSaved_unresolvable
  have := deserializeCM_resolvable_iff l1 t r
  unfold deserializeCM at this
  rw [this]
  exact h

/-- Witness for C9: against the two-card state, a record naming the missing
card 9 is skipped while the two well-referenced records around it are both
applied, exactly as when the bad record is absent. -/
theorem deserialization_skip_and_continue_witness :
    createConnectionFromSaved stateAB ⟨9, 0, 1, 0⟩ = stateAB ∧
    deserializeCM [⟨1, 1, 2, 3⟩, ⟨9, 0, 1, 0⟩, ⟨2, 0, 1, 0⟩] stateAB =
      deserializeCM [⟨1, 1, 2, 3⟩, ⟨2, 0, 1, 0⟩] stateAB ∧
    (deserializeCM [⟨1, 1, 2, 3⟩, ⟨9, 0, 1, 0⟩, ⟨2, 0, 1, 0⟩] stateAB).lines.length = 2 := by
  have h := deserialization_skip_and_continue stateAB ⟨9, 0, 1, 0⟩
    (by with_unfolding_all decide) [⟨1, 1, 2, 3⟩] [⟨2, 0, 1, 0⟩]
  exact ⟨h.1, h.2, by with_unfolding_all decide⟩

/-- C3 (amended): when the layout file fails to parse, the load is aborted
and the failure is reported (the `catch` block logs and alerts), and the
card/connection state is exactly the pre-load state — there is no fallback
to the default grid layout. -/
theorem malformed_layout_aborts_and_reports (off : ℚ) (s : ConnState) :
    loadLayoutFromFile off none s = (s, true) := by
  rfl

/-- Counterexample for C3 as stated: on a concrete non-grid state, a parse
failure is reported and aborts the load, but the resulting state is the
untouched pre-load state, NOT the default grid layout the claim promises
(the grid reset would clear the stored connection and move card B). -/
theorem malformed_layout_counterexample :
    (loadLayoutFromFile 0 none stateRT).2 = true ∧
    (loadLayoutFromFile 0 none stateRT).1 = stateRT ∧
    ¬ ((loadLayoutFromFile 0 none stateRT).1 = resetGridLayout 0 stateRT) := by
  refine ⟨rfl, rfl, ?_⟩
  with_unfolding_all decide

/-- Splice-at-first-match characterised: when an id is found, the line list
splits around its first occurrence and `eraseFirstById` removes exactly that
occurrence. -/
theorem find?_eraseFirst_split (lid : ℕ) :
    ∀ (lines : List Line) (line : Line),
    lines.find? (fun l => l.id = lid) = some line →
    ∃ l1 l2, lines = l1 ++ line :: l2 ∧ (∀ x ∈ l1, x.id ≠ lid) ∧
      eraseFirstById lid lines = l1 ++ l2 ∧ line.id = lid := by
  intro lines
  induction lines with
  | nil => intro line h; cases h
  | cons l ls ih =>
    intro line h
    by_cases hl : l.id = lid
    · have hp : (fun x : Line => decide (x.id = lid)) l = true := decide_eq_true hl
      rw [List.find?_cons_of_pos ls hp] at h
      obtain rfl : l = line := Option.some.inj h
      refine ⟨[], ls, rfl, ?_, ?_, hl⟩
      · intro x hx; cases hx
      · show eraseFirstById lid (l :: ls) = [] ++ ls
        unfold eraseFirstById
        rw [if_pos hl]
        rfl
    · have hp : ¬((fun x : Line => decide (x.id = lid)) l = true) := by simpa using hl
      rw [List.find?_cons_of_neg ls hp] at h
      obtain ⟨l1, l2, hsplit, hnone, herase, hid⟩ := ih line h
      refine ⟨l :: l1, l2, by rw [hsplit]; rfl, ?_, ?_, hid⟩
      · intro x hx
        rcases List.mem_cons.mp hx with rfl | hx2
        · exact hl
        · exact hnone x hx2
      · show eraseFirstById lid (l :: ls) = l :: (l1 ++ l2)
        unfold eraseFirstById
        rw [if_neg hl, herase]

/-- C10: removing a connection id that is absent changes nothing; removing a
stored id splices out the first line with that id and unconditionally resets
both of its endpoints to unoccupied — with no check whether another stored
connection still references one of those endpoints — while every dot not
referenced by the removed line is kept as it was and cards and counter are
untouched. -/
theorem removeConnectionById_spec (s : ConnState) (lid : ℕ) :
    ((∀ l ∈ s.lines, l.id ≠ lid) → removeLineById s lid = s) ∧
    (∀ line, s.lines.find? (fun l => l.id = lid) = some line →
      (∃ l1 l2, s.lines = l1 ++ line :: l2 ∧ (∀ x ∈ l1, x.id ≠ lid) ∧
        (removeLineById s lid).lines = l1 ++ l2) ∧
      (∀ d ∈ (removeLineById s lid).dots,
        (d.id = line.fromDot.id ∨ d.id = line.toDot.id) → d.occupied = false) ∧
      (∀ d ∈ (removeLineById s lid).dots,
        d.id ≠ line.fromDot.id → d.id ≠ line.toDot.id → d ∈ s.dots) ∧
      (removeLineById s lid).cards = s.cards ∧
      (removeLineById s lid).lineCounter = s.lineCounter) := by
  constructor
  · intro hnone
    have hfind : s.lines.find? (fun l => l.id = lid) = none := by
      rw [List.find?_eq_none]
      intro l hl
      simpa using hnone l hl
    simp [removeLineById, hfind]
  · intro line hfind
    have heq : removeLineById s lid =
        { s with
          lines := eraseFirstById lid s.lines,
          dots := setOcc (setOcc s.dots line.fromDot.id false) line.toDot.id false } := by
      simp [removeLineById, hfind]
    obtain ⟨l1, l2, hsplit, hpre, herase, _⟩ := find?_eraseFirst_split lid s.lines line hfind
    refine ⟨⟨l1, l2, hsplit, hpre, by rw [heq]; exact herase⟩, ?_, ?_, ?_, ?_⟩
    · intro d hd hor
      rw [heq] at hd
      rcases hor with hid | hid
      · by_cases hto : d.id = line.toDot.id
        · exact (setOcc_mem_spec _ line.toDot.id false d hd).1 hto
        · exact (setOcc_mem_spec _ line.fromDot.id false d
            ((setOcc_mem_spec _ line.toDot.id false d hd).2 hto)).1 hid
      · exact (setOcc_mem_spec _ line.toDot.id false d hd).1 hid
    · intro d hd hfrom hto
      rw [heq] at hd
      exact (setOcc_mem_spec _ line.fromDot.id false d
        ((setOcc_mem_spec _ line.toDot.id false d hd).2 hto)).2 hfrom
    · rw [heq]
    · rw [heq]

/-- Witness for C10 on a state with two connections sharing an endpoint:
removing connection 1 leaves only connection 2, which still references
`dotShared`, yet `dotShared` is now marked unoccupied; removing the absent
id 7 changes nothing. -/
theorem removeConnectionById_spec_witness :
    (removeLineById stateRM 7 = stateRM) ∧
    (removeLineById stateRM 1).lines = [Line.mk 2 dotShared dotRMc] ∧
    (∀ d ∈ (removeLineById stateRM 1).dots, d.id = dotShared.id → d.occupied = false) := by
  have h7 := (removeConnectionById_spec stateRM 7).1 (by with_unfolding_all decide)
  have h1 := (removeConnectionById_spec stateRM 1).2 (Line.mk 1 dotShared dotRMb)
    (by with_unfolding_all decide)
  refine ⟨h7, by with_unfolding_all decide, ?_⟩
  intro d hd hid
  exact h1.2.1 d hd (Or.inl hid)
